import Mathlib

/-!
Verification of the data-handling logic of the Mangae repository, a
browser-based Earth visualization application.  The definitions below are
shallow embeddings of the TypeScript functions in
`frontend/src/components/EarthGlobe.tsx`, `DataPanel.tsx`,
`HistoricalChart.tsx` and the data-filtering service: JavaScript numbers
are modelled as exact rationals (`ℚ`), `parseInt` results as `Int`,
possibly-NaN parse results as `Option` values, and thrown exceptions as
`Except` results.  Theorems at the end of the file settle the spec claims.
-/

namespace Mangae

/-- One parsed bloom observation (`BloomDataPoint` in `types/index.ts`),
as it flows through the rendering / charting pipeline after ingestion
(all fields numeric, `parseInt` fields as integers). -/
structure BloomDataPoint where
  lat : ℚ
  lon : ℚ
  tmean : ℚ
  pr : ℚ
  NDVI : ℚ
  label : Int
  month : Int
  year : Int
  srad : ℚ
  soil : ℚ
  vpd : ℚ
  dtr : ℚ
  AGDD : ℚ
deriving DecidableEq

/-! ### Region resolver (`isWithinAmericasRegion`, data filtering service) -/

/-- The basic rectangular bounds test of `isWithinAmericasRegion`:
`lat >= -60 && lat <= 85 && lon >= -170 && lon <= -30`. -/
def withinBasicAmericasBounds (lat lon : ℚ) : Bool :=
  decide (-60 ≤ lat ∧ lat ≤ 85 ∧ -170 ≤ lon ∧ lon ≤ -30)

/-- `isWithinAmericasRegion` from the data filtering service: the basic
rectangular bounds check followed by the carved-out exclusion rectangle
`lat > 10 && lat < 20 && lon > -30 && lon < -20` (far eastern Atlantic). -/
def isWithinAmericasRegion (lat lon : ℚ) : Bool :=
  if withinBasicAmericasBounds lat lon = false then false
  else if decide (10 < lat ∧ lat < 20 ∧ -30 < lon ∧ lon < -20) = true then false
  else true

/-! ### Time filter (`filterBloomDataByTime`, EarthGlobe.tsx) -/

/-- `filterBloomDataByTime` from EarthGlobe.tsx.  The `Option` input models
the JavaScript `!data` null-guard; the function ignores the requested year
and month and returns the data unchanged (the body comment in the source
says it returns all available data without time filtering). -/
def filterBloomDataByTime (data : Option (List BloomDataPoint))
    (requestedYear requestedMonth : Int) : List BloomDataPoint :=
  match data with
  | none => []
  | some d => if d.length = 0 then [] else d

/-- The us-east branch of the bloom-layer rendering `useEffect` in
EarthGlobe.tsx: filter by the current time, fall back to 2020-04, then to
2020-01, then to the first 1000 raw points. -/
def usEastTimeFiltered (regionData : List BloomDataPoint)
    (year month : Int) : List BloomDataPoint :=
  let filteredData := filterBloomDataByTime (some regionData) year month
  let filteredData :=
    if filteredData.length = 0 then filterBloomDataByTime (some regionData) 2020 4
    else filteredData
  if filteredData.length = 0 then
    let data2020 := filterBloomDataByTime (some regionData) 2020 1
    if data2020.length > 0 then data2020 else regionData.take 1000
  else filteredData

/-! ### CSV ingestion (`parseBloomCSV`, EarthGlobe.tsx and DataPanel.tsx)

A CSV line is modelled by the parse outcomes of its cells: `parseFloat`
and `parseInt` of a JavaScript string either yield a number (`some`) or
`NaN` (`none`).  Indexing a row at `-1` or past its end yields
`undefined`, whose numeric parses are both `NaN`. -/

/-- Parse outcomes of one CSV cell. -/
structure Cell where
  float : Option ℚ
  int : Option Int
deriving DecidableEq

/-- The `undefined` read of a missing cell; `parseFloat(undefined)` and
`parseInt(undefined)` are both `NaN`. -/
def undefinedCell : Cell := ⟨none, none⟩

/-- `values[idx]` with JavaScript semantics: out-of-range (including the
`-1` of a failed `indexOf`) yields `undefined`. -/
def getCell (values : List Cell) (idx : Int) : Cell :=
  if h : 0 ≤ idx ∧ idx.toNat < values.length then values.get ⟨idx.toNat, h.2⟩
  else undefinedCell

/-- `Array.prototype.indexOf` on the header list: first index, or -1. -/
def indexOf (headers : List String) (name : String) : Int :=
  match headers.findIdx? (fun h => decide (h = name)) with
  | some i => (i : Int)
  | none => -1

/-- A parsed row before validation: every field is a parse outcome
(`none` models `NaN`). -/
structure RawPoint where
  lat : Option ℚ
  lon : Option ℚ
  tmean : Option ℚ
  pr : Option ℚ
  NDVI : Option ℚ
  label : Option Int
  month : Option Int
  year : Option Int
  srad : Option ℚ
  soil : Option ℚ
  vpd : Option ℚ
  dtr : Option ℚ
  AGDD : Option ℚ
deriving DecidableEq

/-- The required column list of EarthGlobe.tsx. -/
def requiredColumns : List String :=
  ["lat", "lon", "tmean", "pr", "NDVI", "label", "month", "year", "srad",
   "soil", "vpd", "dtr", "AGDD"]

/-- Builds the typed point of one row, reading each field at the column
index found in the header (possibly -1). -/
def mkRawPoint (headers : List String) (values : List Cell) : RawPoint :=
  { lat := (getCell values (indexOf headers "lat")).float,
    lon := (getCell values (indexOf headers "lon")).float,
    tmean := (getCell values (indexOf headers "tmean")).float,
    pr := (getCell values (indexOf headers "pr")).float,
    NDVI := (getCell values (indexOf headers "NDVI")).float,
    label := (getCell values (indexOf headers "label")).int,
    month := (getCell values (indexOf headers "month")).int,
    year := (getCell values (indexOf headers "year")).int,
    srad := (getCell values (indexOf headers "srad")).float,
    soil := (getCell values (indexOf headers "soil")).float,
    vpd := (getCell values (indexOf headers "vpd")).float,
    dtr := (getCell values (indexOf headers "dtr")).float,
    AGDD := (getCell values (indexOf headers "AGDD")).float }

/-- The errors thrown inside the EarthGlobe `parseBloomCSV` try-block. -/
inductive ParseError where
  | fetchFailed
  | missingColumns (cols : List String)
  | noValidData
deriving DecidableEq

/-- The main try-block of `parseBloomCSV` in EarthGlobe.tsx: validate that
every required column is present (throw otherwise), drop rows with a
column-count mismatch, drop rows whose lat or lon parse to NaN, drop rows
with coordinates outside [-90,90] x [-180,180], and throw if no valid row
remains. -/
def parseBloomCSVEarthGlobe (headers : List String) (rows : List (List Cell)) :
    Except ParseError (List RawPoint) :=
  let missingCols := requiredColumns.filter (fun c => decide (indexOf headers c = -1))
  if missingCols ≠ [] then .error (.missingColumns missingCols)
  else
    let data := rows.filterMap (fun values =>
      if values.length ≠ headers.length then none
      else
        let point := mkRawPoint headers values
        match point.lat, point.lon with
        | some la, some lo =>
          if la < -90 ∨ la > 90 ∨ lo < -180 ∨ lo > 180 then none
          else some point
        | _, _ => none)
    if data = [] then .error .noValidData else .ok data

/-- The `parseBloomCSV` copy in DataPanel.tsx (us-east variant): no header
validation, drop rows with a column-count mismatch, keep every row whose
lat and lon are not NaN — with no coordinate-range check. -/
def parseBloomCSVDataPanel (headers : List String) (rows : List (List Cell)) :
    List RawPoint :=
  rows.filterMap (fun values =>
    if values.length ≠ headers.length then none
    else
      let point := mkRawPoint headers values
      if point.lat ≠ none ∧ point.lon ≠ none then some point else none)

/-- JavaScript `x || d` on a parse outcome: `NaN` and `0` are falsy. -/
def jsOr (x : Option ℚ) (d : ℚ) : ℚ :=
  match x with
  | some v => if v = 0 then d else v
  | none => d

/-- JavaScript `x || d` on an integer parse outcome. -/
def jsOrInt (x : Option Int) (d : Int) : Int :=
  match x with
  | some v => if v = 0 then d else v
  | none => d

/-- Fallback 1 of EarthGlobe `parseBloomCSV`: the minimal best-effort
parse of the re-fetched text — requires more than one line and the lat and
lon columns, reads at most 99 data rows, keeps rows with matching column
count and non-NaN coordinates, and fills the remaining fields with
defaults (`|| fallback` on the optional columns). -/
def fallbackParse (headers : List String) (rows : List (List Cell)) :
    List RawPoint :=
  if rows = [] then []
  else
    let latIndex := indexOf headers "lat"
    let lonIndex := indexOf headers "lon"
    if latIndex ≠ -1 ∧ lonIndex ≠ -1 then
      (rows.take 99).filterMap (fun values =>
        if values.length = headers.length then
          match (getCell values latIndex).float, (getCell values lonIndex).float with
          | some la, some lo =>
            some { lat := some la, lon := some lo, tmean := some 15,
                   pr := some 100,
                   NDVI := some (if indexOf headers "NDVI" ≠ -1 then
                     jsOr (getCell values (indexOf headers "NDVI")).float (1/2)
                     else 1/2),
                   label := some (if indexOf headers "label" ≠ -1 then
                     jsOrInt (getCell values (indexOf headers "label")).int 0
                     else 0),
                   month := some (if indexOf headers "month" ≠ -1 then
                     jsOrInt (getCell values (indexOf headers "month")).int 4
                     else 4),
                   year := some (if indexOf headers "year" ≠ -1 then
                     jsOrInt (getCell values (indexOf headers "year")).int 2020
                     else 2020),
                   srad := some 1200, soil := some 1100, vpd := some 50,
                   dtr := some 10, AGDD := some 100 }
          | _, _ => none
        else none)
    else []

/-- Fallback 2 of EarthGlobe `parseBloomCSV`: the synthetic 8 x 8 grid over
the eastern US; `rand` supplies the `Math.random()` stream (each point
consumes nine draws). -/
def syntheticData (rand : ℕ → ℚ) : List RawPoint :=
  (List.range 8).flatMap (fun i => (List.range 8).map (fun j =>
    let n := 9 * (8 * i + j)
    { lat := some (30 + 2 * (i : ℚ)), lon := some (-85 + 2 * (j : ℚ)),
      tmean := some (15 + rand n * 10), pr := some (80 + rand (n + 1) * 40),
      NDVI := some (3/10 + rand (n + 2) * (4/10)),
      label := some (Int.floor (rand (n + 3) * 3)),
      month := some 4, year := some 2020,
      srad := some (1000 + rand (n + 4) * 400),
      soil := some (1000 + rand (n + 5) * 200),
      vpd := some (30 + rand (n + 6) * 40), dtr := some (8 + rand (n + 7) * 6),
      AGDD := some (50 + rand (n + 8) * 100) }))

/-- The catch-block of `parseBloomCSV` in EarthGlobe.tsx: the re-fetch
(with a different cache directive) outcome fed to the minimal parse, then
the synthetic grid.  Always yields a list; the trailing `return []` of
the source is unreachable behind `return syntheticData`. -/
def fallbackChainResult
    (fallbackFetched : Except Unit (List String × List (List Cell)))
    (rand : ℕ → ℚ) : List RawPoint :=
  match fallbackFetched with
  | .ok (h, rs) =>
    if fallbackParse h rs ≠ [] then fallbackParse h rs else syntheticData rand
  | .error _ => syntheticData rand

/-- The outcome dispatch of the whole `parseBloomCSV`: the primary
fetch-and-parse, with the catch-block chain on any failure. -/
def parseBloomCSVWithFallbacks
    (fetched : Except Unit (List String × List (List Cell)))
    (fallbackFetched : Except Unit (List String × List (List Cell)))
    (rand : ℕ → ℚ) : List RawPoint :=
  match (match fetched with
    | .ok (h, rs) => parseBloomCSVEarthGlobe h rs
    | .error _ => .error .fetchFailed) with
  | .ok data => data
  | .error _ => fallbackChainResult fallbackFetched rand

/-! ### Data filtering service (`getLocationData`, data source selection) -/

/-- One record of the inline Americas-CSV parse in `getLocationData`
(the Americas files use a `GDDm` column for `AGDD`; `label` and `AGDD`
fall back to 0 through `||`).  The coordinate fields are plain rationals:
a NaN coordinate fails the viewport comparison and the row is dropped. -/
structure AmericasPoint where
  lat : ℚ
  lon : ℚ
  tmean : Option ℚ
  pr : Option ℚ
  NDVI : Option ℚ
  label : Int
  month : Option Int
  year : Option Int
  srad : Option ℚ
  soil : Option ℚ
  AGDD : ℚ
deriving DecidableEq

/-- The squared degree distance of `calculateDistance` in the data
filtering service.  The source takes a square root and only compares the
result with other distances or the threshold 5; square root is strictly
monotone on nonnegatives, so comparing squares (threshold 25) agrees. -/
def calculateDistanceSq (lat1 lon1 lat2 lon2 : ℚ) : ℚ :=
  (lat1 - lat2) * (lat1 - lat2) + (lon1 - lon2) * (lon1 - lon2)

/-- The inline viewport parse of `getLocationData`: rows of matching
column count whose coordinates parse and land within ±0.1 degrees of the
target. -/
def parseAmericasViewport (headers : List String) (rows : List (List Cell))
    (targetLat targetLon : ℚ) : List AmericasPoint :=
  rows.filterMap (fun values =>
    if values.length = headers.length then
      match (getCell values (indexOf headers "lat")).float,
        (getCell values (indexOf headers "lon")).float with
      | some la, some lo =>
        if targetLat - 1/10 ≤ la ∧ la ≤ targetLat + 1/10 ∧
            targetLon - 1/10 ≤ lo ∧ lo ≤ targetLon + 1/10 then
          some { lat := la, lon := lo,
                 tmean := (getCell values (indexOf headers "tmean")).float,
                 pr := (getCell values (indexOf headers "pr")).float,
                 NDVI := (getCell values (indexOf headers "NDVI")).float,
                 label := jsOrInt (getCell values (indexOf headers "label")).int 0,
                 month := (getCell values (indexOf headers "month")).int,
                 year := (getCell values (indexOf headers "year")).int,
                 srad := (getCell values (indexOf headers "srad")).float,
                 soil := (getCell values (indexOf headers "soil")).float,
                 AGDD := jsOr (getCell values (indexOf headers "GDDm")).float 0 }
        else none
      | _, _ => none
    else none)

/-- `findNearestPoint` of the data filtering service: the first point of
strictly minimal distance (the running minimum starts at Infinity and is
replaced only on strict decrease). -/
def findNearestPoint (lat lon : ℚ) : List AmericasPoint → Option AmericasPoint
  | [] => none
  | p :: ps => some (ps.foldl (fun best q =>
      if calculateDistanceSq lat lon q.lat q.lon <
          calculateDistanceSq lat lon best.lat best.lon then q else best) p)

/-- The two data sources of `LocationDataResult`. -/
inductive DataSource where
  | csv
  | nasaPower
deriving DecidableEq

/-- The result record of `getLocationData`.  The `confidence` field of
the source is a pure function of the distance and does not influence any
control flow; it is not modelled (it would require the square root). -/
structure LocationDataResult where
  source : DataSource
  withinRange : Bool
  distanceSq : Option ℚ
  nearestPoint : Option AmericasPoint
  bloomAvailable : Bool
deriving DecidableEq

/-- The NASA POWER fallback tail of `getLocationData`: a result when the
API call succeeds, a thrown error when it fails too. -/
def nasaFallback (nasaFetched : Except Unit Unit) :
    Except String LocationDataResult :=
  match nasaFetched with
  | .ok _ => .ok { source := .nasaPower, withinRange := false,
                   distanceSq := none, nearestPoint := none,
                   bloomAvailable := false }
  | .error _ => .error "No data available for location"

/-- `getLocationData` of the data filtering service: inside the Americas
region try the Americas CSV (viewport parse, nearest point, 5-degree
threshold), in every failure case fall back to the NASA POWER API, and
throw only when that also fails. -/
def getLocationData (targetLat targetLon : ℚ)
    (americasFetched : Except Unit (List String × List (List Cell)))
    (nasaFetched : Except Unit Unit) : Except String LocationDataResult :=
  if isWithinAmericasRegion targetLat targetLon = true then
    match americasFetched with
    | .ok (headers, rows) =>
      let americasData := parseAmericasViewport headers rows targetLat targetLon
      match findNearestPoint targetLat targetLon americasData with
      | some nearestPoint =>
        let dSq := calculateDistanceSq targetLat targetLon
          nearestPoint.lat nearestPoint.lon
        if dSq ≤ 25 then
          .ok { source := .csv, withinRange := true, distanceSq := some dSq,
                nearestPoint := some nearestPoint, bloomAvailable := true }
        else nasaFallback nasaFetched
      | none => nasaFallback nasaFetched
    | .error _ => nasaFallback nasaFetched
  else nasaFallback nasaFetched

/-! ### Time/space filter (`processDataAsync`, HistoricalChart.tsx) -/

/-- The squared Euclidean-in-degrees distance from a chart location to a
point.  The source computes `Math.sqrt(latDiff² + lonDiff²)` and only ever
compares distances with each other or with a constant, and square root is
strictly monotone on nonnegative reals, so comparisons of the squares used
here agree with comparisons of the distances in the source. -/
def distSq (clat clng : ℚ) (p : BloomDataPoint) : ℚ :=
  (p.lat - clat) * (p.lat - clat) + (p.lon - clng) * (p.lon - clng)

/-- One iteration body of the expanding-radius search: the square filter
`Math.abs(point.lat - location.lat) <= radius && Math.abs(point.lon -
location.lng) <= radius`. -/
def squareFilter (data : List BloomDataPoint) (clat clng r : ℚ) :
    List BloomDataPoint :=
  data.filter (fun p => decide (|p.lat - clat| ≤ r ∧ |p.lon - clng| ≤ r))

/-- The expanding radius sequence `[0.5, 1.0, 2.0, 5.0, 10.0]`. -/
def searchRadii : List ℚ := [1/2, 1, 2, 5, 10]

/-- The `for (const radius of searchRadii)` loop of `processDataAsync`:
take the result of the first radius with at least one match; if no radius
matches the loop leaves an empty result. -/
def searchLoop (data : List BloomDataPoint) (clat clng : ℚ) :
    List ℚ → List BloomDataPoint
  | [] => []
  | r :: rs =>
    let ld := squareFilter data clat clng r
    if ld.length > 0 then ld else searchLoop data clat clng rs

/-- The nearest-50 fallback of `processDataAsync`: annotate every point
with its distance to the location, sort ascending, keep the first 50 and
strip the annotation.  Annotating and stripping compose to the identity,
so this is the stable distance sort followed by `take 50`. -/
def nearestFifty (data : List BloomDataPoint) (clat clng : ℚ) :
    List BloomDataPoint :=
  (List.insertionSort (fun a b => distSq clat clng a ≤ distSq clat clng b) data).take 50

/-- The nearby-data selection of `processDataAsync`: the expanding-radius
search, with the nearest-50 fallback when no radius matched. -/
def locationDataOf (data : List BloomDataPoint) (clat clng : ℚ) :
    List BloomDataPoint :=
  let viaRadii := searchLoop data clat clng searchRadii
  if viaRadii.length = 0 then nearestFifty data clat clng else viaRadii

/-! ### Aggregator (`processDataAsync`, HistoricalChart.tsx)

The source groups into a JavaScript `Map` keyed by the string
`${point.year}-${point.month}`.  For integer year and month this string
encoding is injective (a rendered integer never contains an interior
dash), so the map is modelled with the key pair `(year, month)`; `Map`
iteration order is insertion order, modelled by an association list to
which new keys are appended at the end. -/

/-- The grouping key `(point.year, point.month)`. -/
def keyOf (p : BloomDataPoint) : Int × Int := (p.year, p.month)

/-- One bucket of the monthly aggregation `Map`. -/
structure GroupAcc where
  ndviValues : List ℚ
  tempValues : List ℚ
  precipValues : List ℚ
  vpdValues : List ℚ
  year : Int
  month : Int
deriving DecidableEq

/-- The `push` calls on an existing bucket. -/
def pushPoint (g : GroupAcc) (p : BloomDataPoint) : GroupAcc :=
  { g with ndviValues := g.ndviValues ++ [p.NDVI],
           tempValues := g.tempValues ++ [p.tmean],
           precipValues := g.precipValues ++ [p.pr],
           vpdValues := g.vpdValues ++ [p.vpd] }

/-- The fresh bucket created by `monthlyAggregates.set(key, {...})`. -/
def emptyGroup (p : BloomDataPoint) : GroupAcc :=
  { ndviValues := [], tempValues := [], precipValues := [], vpdValues := [],
    year := p.year, month := p.month }

/-- The loop body of `locationData.forEach`: create the bucket if the key
is new (appended at the end, as `Map.set` does), then push the values. -/
def addPoint (acc : List ((Int × Int) × GroupAcc)) (p : BloomDataPoint) :
    List ((Int × Int) × GroupAcc) :=
  if acc.any (fun e => decide (e.1 = keyOf p)) then
    acc.map (fun e => if e.1 = keyOf p then (e.1, pushPoint e.2 p) else e)
  else
    acc ++ [(keyOf p, pushPoint (emptyGroup p) p)]

/-- The `monthlyAggregates` map after the `forEach` over the filtered
location data. -/
def monthlyAggregates (locationData : List BloomDataPoint) :
    List ((Int × Int) × GroupAcc) :=
  locationData.foldl addPoint []

/-- One record of the derived time series.  The `date` string of the
source, `${year}-${month}-01`, is a pure rendering of the `(year, month)`
fields used only as a chart label and is not modelled separately. -/
structure TimeSeriesRecord where
  ndvi : ℚ
  temperature : ℚ
  precipitation : ℚ
  vpd : ℚ
  year : Int
  month : Int
deriving DecidableEq

/-- The per-bucket record: `reduce((a, b) => a + b, 0) / length` for each
of the four value lists. -/
def mkRecord (g : GroupAcc) : TimeSeriesRecord :=
  { ndvi := g.ndviValues.sum / g.ndviValues.length,
    temperature := g.tempValues.sum / g.tempValues.length,
    precipitation := g.precipValues.sum / g.precipValues.length,
    vpd := g.vpdValues.sum / g.vpdValues.length,
    year := g.year, month := g.month }

/-- The chronological comparator of the final `timeSeries.sort`:
year ascending, then month ascending. -/
def chronoLE (a b : TimeSeriesRecord) : Prop :=
  a.year < b.year ∨ (a.year = b.year ∧ a.month ≤ b.month)

instance : DecidableRel chronoLE := fun a b => by
  unfold chronoLE
  infer_instance

instance : IsTotal TimeSeriesRecord chronoLE :=
  ⟨fun a b => by unfold chronoLE; omega⟩

instance : IsTrans TimeSeriesRecord chronoLE :=
  ⟨fun a b c hab hbc => by unfold chronoLE at *; omega⟩

/-- The full aggregation of `processDataAsync`: bucket by `(year, month)`,
convert each bucket to its mean record, and sort chronologically (the
stable JavaScript sort is modelled by the stable insertion sort). -/
def timeSeriesOf (locationData : List BloomDataPoint) : List TimeSeriesRecord :=
  List.insertionSort chronoLE
    ((monthlyAggregates locationData).map (fun e => mkRecord e.2))

/-- Bucket lookup in the association list, mirroring `Map.get`. -/
def lookupKey (acc : List ((Int × Int) × GroupAcc)) (k : Int × Int) :
    Option GroupAcc :=
  (acc.find? (fun e => decide (e.1 = k))).map Prod.snd

/-- The subset of the input belonging to one `(year, month)` group. -/
def groupOf (locationData : List BloomDataPoint) (k : Int × Int) :
    List BloomDataPoint :=
  locationData.filter (fun p => decide (keyOf p = k))

/-- The bucket contents determined directly by a group of input points. -/
def groupAccOf (k : Int × Int) (grp : List BloomDataPoint) : GroupAcc :=
  { ndviValues := grp.map BloomDataPoint.NDVI,
    tempValues := grp.map BloomDataPoint.tmean,
    precipValues := grp.map BloomDataPoint.pr,
    vpdValues := grp.map BloomDataPoint.vpd,
    year := k.1, month := k.2 }

/-- A bucket extended by the values of a further list of points. -/
def appendGroup (g : GroupAcc) (grp : List BloomDataPoint) : GroupAcc :=
  { g with ndviValues := g.ndviValues ++ grp.map BloomDataPoint.NDVI,
           tempValues := g.tempValues ++ grp.map BloomDataPoint.tmean,
           precipValues := g.precipValues ++ grp.map BloomDataPoint.pr,
           vpdValues := g.vpdValues ++ grp.map BloomDataPoint.vpd }

/-- The empty bucket carrying a key. -/
def emptyAcc (k : Int × Int) : GroupAcc :=
  { ndviValues := [], tempValues := [], precipValues := [], vpdValues := [],
    year := k.1, month := k.2 }

/-! ### Sampler (bloom-layer rendering useEffect, EarthGlobe.tsx) -/

/-- The priority score of the sampler: `a.label * 1000 + a.NDVI * 100`. -/
def priority (p : BloomDataPoint) : ℚ :=
  p.label * 1000 + p.NDVI * 100

/-- The descending stable sort on priority produced by
`[...filteredData].sort((a, b) => priorityB - priorityA)`; JavaScript
`Array.prototype.sort` is stable, as is insertion sort. -/
def priorityDescSorted (data : List BloomDataPoint) : List BloomDataPoint :=
  List.insertionSort (fun a b => priority b ≤ priority a) data

/-- The deterministic stride `.filter((_, index) => index % 3 === 0)`:
keep the elements at indices 0, 3, 6, ... -/
def everyThird {α : Type} : List α → List α
  | [] => []
  | a :: t => a :: everyThird (t.drop 2)
termination_by l => l.length
decreasing_by simp only [List.length_drop, List.length_cons]; omega

/-- The sampler of the bloom-layer rendering `useEffect` in EarthGlobe.tsx:
sort by priority descending, take the top `floor(budget * 0.7)` points,
then fill from the remainder by the every-third stride, capped at
`floor(budget * 0.3)` points.  For every budget the code ever passes
(3000, 1500, 800, 400, and all small naturals), `Math.floor(b * 0.7)`
evaluated in binary doubles equals `⌊7b/10⌋`, and likewise for `0.3`, so
the exact-rational floors used here agree with the source. -/
def sampleData (data : List BloomDataPoint) (budget : ℕ) : List BloomDataPoint :=
  let sortedData := priorityDescSorted data
  let topPriority := sortedData.take (budget * 7 / 10)
  let randomSample := (everyThird (sortedData.drop (budget * 7 / 10))).take (budget * 3 / 10)
  topPriority ++ randomSample

/-- The four camera-height tiers of `maxPointsPerRegion` in the bloom-layer
rendering `useEffect`. -/
def maxPointsPerRegion (cameraHeight : ℚ) : ℕ :=
  if cameraHeight < 1000000 then 3000
  else if cameraHeight < 5000000 then 1500
  else if cameraHeight < 15000000 then 800
  else 400

/-- The point-limiting step of the rendering `useEffect`: the sampler runs
only when the filtered count exceeds the tier budget, otherwise the data
is passed through unchanged. -/
def limitedData (filteredData : List BloomDataPoint) (cameraHeight : ℚ) :
    List BloomDataPoint :=
  if filteredData.length > maxPointsPerRegion cameraHeight then
    sampleData filteredData (maxPointsPerRegion cameraHeight)
  else filteredData

/-- A cell whose float and integer parses both succeed. -/
def numCell (f : ℚ) (i : Int) : Cell := ⟨some f, some i⟩

/-- A well-formed 13-column row (lat 40, lon -75) for the full header. -/
def goodRow : List Cell :=
  [numCell 40 40, numCell (-75) (-75), numCell 15 15, numCell 100 100,
   numCell (13/20) 0, numCell 2 2, numCell 4 4, numCell 2020 2020,
   numCell 1200 1200, numCell 1100 1100, numCell 50 50, numCell 10 10,
   numCell 100 100]

/-- A 13-column row whose latitude (200) parses but is out of range. -/
def badLatRow : List Cell :=
  [numCell 200 200, numCell (-75) (-75), numCell 15 15, numCell 100 100,
   numCell (13/20) 0, numCell 2 2, numCell 4 4, numCell 2020 2020,
   numCell 1200 1200, numCell 1100 1100, numCell 50 50, numCell 10 10,
   numCell 100 100]

/-- A header missing the required `tmean` column. -/
def hdrMissingTmean : List String :=
  ["lat", "lon", "pr", "NDVI", "label", "month", "year", "srad", "soil",
   "vpd", "dtr", "AGDD"]

/-- A header missing the required `lat` column. -/
def hdrNoLat : List String :=
  ["lon", "tmean", "pr", "NDVI", "label", "month", "year", "srad", "soil",
   "vpd", "dtr", "AGDD"]

/-- A well-formed 12-column row matching the 12-column headers. -/
def rowTwelve : List Cell :=
  [numCell 40 40, numCell (-75) (-75), numCell 100 100, numCell (13/20) 0,
   numCell 2 2, numCell 4 4, numCell 2020 2020, numCell 1200 1200,
   numCell 1100 1100, numCell 50 50, numCell 10 10, numCell 100 100]

/-- A concrete observation used to instantiate witness statements. -/
def samplePoint : BloomDataPoint :=
  { lat := 40, lon := -75, tmean := 15, pr := 100, NDVI := 13/20, label := 2,
    month := 4, year := 2020, srad := 1200, soil := 1100, vpd := 50,
    dtr := 10, AGDD := 100 }

/-- A second concrete observation (different coordinates and scores). -/
def samplePoint2 : BloomDataPoint :=
  { lat := 401/10, lon := -751/10, tmean := 14, pr := 90, NDVI := 11/20, label := 1,
    month := 4, year := 2020, srad := 1150, soil := 1050, vpd := 45,
    dtr := 9, AGDD := 90 }

end Mangae

namespace Mangae

/-- C8: the claim asserts the existence of a coordinate that passes the
basic rectangular bounds test but is rejected by `isWithinAmericasRegion`
because of an exclusion rectangle.  No such coordinate exists: the
exclusion rectangle requires `lon > -30` while the basic bounds require
`lon ≤ -30`. -/
theorem C8_counterexample :
    ¬ ∃ lat lon : ℚ, withinBasicAmericasBounds lat lon = true ∧
      isWithinAmericasRegion lat lon = false := by
  rintro ⟨lat, lon, hb, hw⟩
  unfold isWithinAmericasRegion at hw
  rw [hb] at hw
  simp only [Bool.true_eq_false, if_false] at hw
  unfold withinBasicAmericasBounds at hb
  rw [decide_eq_true_eq] at hb
  by_cases hex : (10 < lat ∧ lat < 20 ∧ -30 < lon ∧ lon < -20)
  · exact absurd hb.2.2.2 (not_le.mpr hex.2.2.1)
  · rw [decide_eq_false hex] at hw
    simp at hw

/-- C8 (amended): the exclusion rectangles of `isWithinAmericasRegion` are
vacuous — the carved-out rectangle lies entirely outside the basic bounds,
so the classification coincides exactly with the basic rectangular bounds
test. -/
theorem C8_amended (lat lon : ℚ) :
    isWithinAmericasRegion lat lon = withinBasicAmericasBounds lat lon := by
  unfold isWithinAmericasRegion
  by_cases hb : withinBasicAmericasBounds lat lon = true
  · rw [hb]
    simp only [Bool.true_eq_false, if_false]
    by_cases hex : (10 < lat ∧ lat < 20 ∧ -30 < lon ∧ lon < -20)
    · unfold withinBasicAmericasBounds at hb
      rw [decide_eq_true_eq] at hb
      exact absurd hb.2.2.2 (not_le.mpr hex.2.2.1)
    · rw [decide_eq_false hex]
      simp
  · rw [Bool.not_eq_true] at hb
    rw [hb]
    simp

/-- C10: `filterBloomDataByTime` returns a non-empty input unchanged for
every requested year and month, returns `[]` for a missing or empty input,
and consequently the 2020-04 substitution in the rendering path is never
taken for non-empty region data (`usEastTimeFiltered` returns the region
data itself). -/
theorem C10_time_filter_identity (regionData : List BloomDataPoint) (y m : Int) :
    (regionData ≠ [] → filterBloomDataByTime (some regionData) y m = regionData) ∧
    filterBloomDataByTime none y m = [] ∧
    filterBloomDataByTime (some []) y m = [] ∧
    (regionData ≠ [] → usEastTimeFiltered regionData y m = regionData) := by
  have hne : regionData ≠ [] → regionData.length ≠ 0 := by
    intro h
    simpa [List.length_eq_zero] using h
  refine ⟨?_, rfl, rfl, ?_⟩
  · intro h
    simp [filterBloomDataByTime, hne h]
  · intro h
    simp [usEastTimeFiltered, filterBloomDataByTime, hne h]

/-- C10 witness: instantiation at a concrete one-point region. -/
theorem C10_time_filter_identity_witness :
    filterBloomDataByTime (some [samplePoint]) 2024 7 = [samplePoint] ∧
    usEastTimeFiltered [samplePoint] 2024 7 = [samplePoint] :=
  ⟨(C10_time_filter_identity [samplePoint] 2024 7).1 (by simp),
   (C10_time_filter_identity [samplePoint] 2024 7).2.2.2 (by simp)⟩

/-- The priority-descending sort is a permutation of its input. -/
theorem priorityDescSorted_perm (data : List BloomDataPoint) :
    List.Perm (priorityDescSorted data) data :=
  List.perm_insertionSort _ data

/-- The priority-descending sort is sorted for the descending relation. -/
theorem sorted_priorityDescSorted (data : List BloomDataPoint) :
    List.Sorted (fun a b => priority b ≤ priority a) (priorityDescSorted data) := by
  letI : IsTotal BloomDataPoint (fun a b => priority b ≤ priority a) :=
    ⟨fun a b => le_total (priority b) (priority a)⟩
  letI : IsTrans BloomDataPoint (fun a b => priority b ≤ priority a) :=
    ⟨fun a b c hab hbc => le_trans hbc hab⟩
  exact List.sorted_insertionSort _ data

/-- The sampler never returns more points than its budget. -/
theorem sampleData_length_le (data : List BloomDataPoint) (budget : ℕ) :
    (sampleData data budget).length ≤ budget := by
  unfold sampleData
  simp only [List.length_append]
  have h1 : (List.take (budget * 7 / 10) (priorityDescSorted data)).length ≤ budget * 7 / 10 := by
    rw [List.length_take]; exact min_le_left _ _
  have h2 : ((everyThird ((priorityDescSorted data).drop (budget * 7 / 10))).take
      (budget * 3 / 10)).length ≤ budget * 3 / 10 := by
    rw [List.length_take]; exact min_le_left _ _
  omega

/-- C4: the claim fails at budget 1.  With budget 1 both `floor(0.7)` and
`floor(0.3)` are zero, so the sampler returns the empty list and the
unique point of maximal priority score does not appear in the output. -/
theorem C4_counterexample :
    samplePoint ∈ [samplePoint, samplePoint2] ∧
    (∀ q ∈ [samplePoint, samplePoint2], priority q ≤ priority samplePoint) ∧
    1 ≥ 1 ∧
    sampleData [samplePoint, samplePoint2] 1 = [] ∧
    samplePoint ∉ sampleData [samplePoint, samplePoint2] 1 := by
  have hempty : sampleData [samplePoint, samplePoint2] 1 = [] := by
    simp [sampleData]
  refine ⟨by simp, ?_, le_refl 1, hempty, by simp [hempty]⟩
  intro q hq
  rcases List.mem_cons.mp hq with rfl | hq
  · exact le_refl _
  · rcases List.mem_singleton.mp hq with rfl
    norm_num [priority, samplePoint, samplePoint2]

/-- C4 (amended): whenever the sampler is applied with budget ≥ 2 to a
non-empty input, a point of maximal priority score appears in its output
(at budget 1 the output is empty, and when the maximum is attained by
several points only the first in the sorted order is guaranteed to
survive). -/
theorem C4_amended (data : List BloomDataPoint) (budget : ℕ)
    (hb : 2 ≤ budget) (hd : data ≠ []) :
    ∃ p ∈ sampleData data budget, ∀ q ∈ data, priority q ≤ priority p := by
  obtain ⟨h0, t, hst⟩ : ∃ h0 t, priorityDescSorted data = h0 :: t := by
    cases hps : priorityDescSorted data with
    | nil =>
        exfalso
        apply hd
        have hp := priorityDescSorted_perm data
        rw [hps] at hp
        exact hp.symm.eq_nil
    | cons h0 t => exact ⟨h0, t, rfl⟩
  have hsorted := sorted_priorityDescSorted data
  rw [hst] at hsorted
  refine ⟨h0, ?_, ?_⟩
  · unfold sampleData
    apply List.mem_append_left
    rw [hst]
    have h710 : 1 ≤ budget * 7 / 10 := by omega
    have hsucc : budget * 7 / 10 = (budget * 7 / 10 - 1) + 1 := by omega
    rw [hsucc, List.take_succ_cons]
    exact List.mem_cons_self _ _
  · intro q hq
    have hq' : q ∈ priorityDescSorted data := (priorityDescSorted_perm data).mem_iff.mpr hq
    rw [hst] at hq'
    rcases List.mem_cons.mp hq' with rfl | hmem
    · exact le_refl _
    · exact List.rel_of_sorted_cons hsorted q hmem

/-- C4 witness: instantiation at budget 2 on a concrete two-point input. -/
theorem C4_amended_witness :
    2 ≤ 2 ∧ ([samplePoint, samplePoint2] : List BloomDataPoint) ≠ [] ∧
    ∃ p ∈ sampleData [samplePoint, samplePoint2] 2,
      ∀ q ∈ [samplePoint, samplePoint2], priority q ≤ priority p :=
  ⟨le_refl 2, by simp,
   C4_amended [samplePoint, samplePoint2] 2 (le_refl 2) (by simp)⟩

/-- C5: the sampler runs only when the filtered count exceeds the
camera-tier budget (when the count is within the budget the list is
returned unchanged), the returned list never exceeds the budget, and the
budget is one of the four tiers 3000, 1500, 800, 400. -/
theorem C5_budget_tiers (filteredData : List BloomDataPoint) (cameraHeight : ℚ) :
    (limitedData filteredData cameraHeight).length ≤ maxPointsPerRegion cameraHeight ∧
    (filteredData.length ≤ maxPointsPerRegion cameraHeight →
      limitedData filteredData cameraHeight = filteredData) ∧
    (maxPointsPerRegion cameraHeight = 3000 ∨ maxPointsPerRegion cameraHeight = 1500 ∨
      maxPointsPerRegion cameraHeight = 800 ∨ maxPointsPerRegion cameraHeight = 400) := by
  refine ⟨?_, ?_, ?_⟩
  · unfold limitedData
    split
    · exact sampleData_length_le _ _
    · omega
  · intro hle
    unfold limitedData
    rw [if_neg (by omega)]
  · unfold maxPointsPerRegion
    split_ifs <;> simp

/-- A column absent from the header has index -1. -/
theorem indexOf_eq_neg_one (headers : List String) (c : String)
    (hmiss : c ∉ headers) : indexOf headers c = -1 := by
  unfold indexOf
  have hnone : headers.findIdx? (fun h => decide (h = c)) = none := by
    rw [List.findIdx?_eq_none_iff]
    intro x hx
    simp only [decide_eq_false_iff_not]
    rintro rfl
    exact hmiss hx
  rw [hnone]

/-- C1 (counterexample to the original claim): the DataPanel copy of the
ingestor keeps a row whose latitude parses to 200, far outside [-90, 90];
only the EarthGlobe copy enforces the coordinate bounds. -/
theorem C1_counterexample :
    ∃ p ∈ parseBloomCSVDataPanel requiredColumns [badLatRow],
      p.lat = some 200 ∧ ¬ ((200 : ℚ) ≤ 90) := by
  have heval : parseBloomCSVDataPanel requiredColumns [badLatRow] =
      [mkRawPoint requiredColumns badLatRow] := rfl
  refine ⟨mkRawPoint requiredColumns badLatRow, ?_, rfl, by norm_num⟩
  rw [heval]
  exact List.mem_cons_self _ _

/-- C1 (amended): the EarthGlobe copy of `parseBloomCSV` guarantees that
every returned point has parsed coordinates with latitude in [-90, 90]
and longitude in [-180, 180]; the DataPanel copy only guarantees that the
coordinates are not NaN, with no range check. -/
theorem C1_amended (headers : List String) (rows : List (List Cell)) :
    (∀ data, parseBloomCSVEarthGlobe headers rows = .ok data →
      ∀ p ∈ data, ∃ la lo, p.lat = some la ∧ p.lon = some lo ∧
        -90 ≤ la ∧ la ≤ 90 ∧ -180 ≤ lo ∧ lo ≤ 180) ∧
    (∀ p ∈ parseBloomCSVDataPanel headers rows,
      p.lat ≠ none ∧ p.lon ≠ none) := by
  constructor
  · intro data hok p hp
    simp only [parseBloomCSVEarthGlobe] at hok
    split at hok
    · exact absurd hok (by simp)
    · split at hok
      · exact absurd hok (by simp)
      · have hdata := Except.ok.inj hok
        rw [← hdata] at hp
        rcases List.mem_filterMap.mp hp with ⟨values, _, hf⟩
        split at hf
        · exact absurd hf (by simp)
        · cases hla : (mkRawPoint headers values).lat with
          | none =>
            simp only [hla] at hf
            exact absurd hf (by simp)
          | some la =>
            cases hlo : (mkRawPoint headers values).lon with
            | none =>
              simp only [hla, hlo] at hf
              exact absurd hf (by simp)
            | some lo =>
              simp only [hla, hlo] at hf
              split at hf
              · exact absurd hf (by simp)
              · next hrange =>
                push_neg at hrange
                have hp' : p = mkRawPoint headers values :=
                  (Option.some_inj.mp hf).symm
                refine ⟨la, lo, by rw [hp']; exact hla, by rw [hp']; exact hlo,
                  ?_, ?_, ?_, ?_⟩
                · exact hrange.1
                · exact hrange.2.1
                · exact hrange.2.2.1
                · exact hrange.2.2.2
  · intro p hp
    rcases List.mem_filterMap.mp hp with ⟨values, _, hf⟩
    simp only at hf
    split at hf
    · exact absurd hf (by simp)
    · split at hf
      · next hcond => exact (Option.some_inj.mp hf) ▸ hcond
      · exact absurd hf (by simp)

/-- C1 witness: the EarthGlobe copy accepts a well-formed row and the
returned point satisfies the coordinate bounds. -/
theorem C1_amended_witness :
    parseBloomCSVEarthGlobe requiredColumns [goodRow] =
      .ok [mkRawPoint requiredColumns goodRow] ∧
    (∃ la lo, (mkRawPoint requiredColumns goodRow).lat = some la ∧
      (mkRawPoint requiredColumns goodRow).lon = some lo ∧
      -90 ≤ la ∧ la ≤ 90 ∧ -180 ≤ lo ∧ lo ≤ 180) := by
  have heval : parseBloomCSVEarthGlobe requiredColumns [goodRow] =
      .ok [mkRawPoint requiredColumns goodRow] := rfl
  exact ⟨heval,
    (C1_amended requiredColumns [goodRow]).1 _ heval _ (List.mem_cons_self _ _)⟩

/-- C6 (counterexample to the original claim): with the `tmean` column
missing from the header, the DataPanel copy reports no error and emits a
partially-typed row (its tmean field is NaN). -/
theorem C6_counterexample :
    ∃ p ∈ parseBloomCSVDataPanel hdrMissingTmean [rowTwelve],
      p.tmean = none ∧ p.lat = some 40 := by
  have heval : parseBloomCSVDataPanel hdrMissingTmean [rowTwelve] =
      [mkRawPoint hdrMissingTmean rowTwelve] := rfl
  refine ⟨mkRawPoint hdrMissingTmean rowTwelve, ?_, rfl, rfl⟩
  rw [heval]
  exact List.mem_cons_self _ _

/-- C6 (amended): the EarthGlobe copy reports a missing-columns error
(naming the absent column) and yields no data; the DataPanel copy has no
header validation — a missing `lat` column makes it return the empty
list, but a missing non-coordinate column silently yields rows typed from
the incomplete header (see the counterexample). -/
theorem C6_amended (headers : List String) (rows : List (List Cell))
    (c : String) (hc : c ∈ requiredColumns) (hmiss : c ∉ headers) :
    (∃ cols, parseBloomCSVEarthGlobe headers rows =
      .error (.missingColumns cols) ∧ c ∈ cols) ∧
    ("lat" ∉ headers → parseBloomCSVDataPanel headers rows = []) := by
  constructor
  · have hcmem : c ∈ requiredColumns.filter
        (fun c => decide (indexOf headers c = -1)) := by
      rw [List.mem_filter]
      exact ⟨hc, by rw [indexOf_eq_neg_one headers c hmiss]; simp⟩
    have hne : requiredColumns.filter
        (fun c => decide (indexOf headers c = -1)) ≠ [] := by
      intro h
      rw [h] at hcmem
      exact List.not_mem_nil _ hcmem
    refine ⟨_, ?_, hcmem⟩
    unfold parseBloomCSVEarthGlobe
    rw [if_pos hne]
  · intro hlat
    have hlatidx : indexOf headers "lat" = -1 :=
      indexOf_eq_neg_one headers "lat" hlat
    have hnolat : ∀ values : List Cell, (mkRawPoint headers values).lat = none := by
      intro values
      simp only [mkRawPoint, hlatidx, getCell]
      rw [dif_neg (by omega)]
      rfl
    unfold parseBloomCSVDataPanel
    rw [List.filterMap_eq_nil_iff]
    intro values _
    simp only
    split
    · rfl
    · rw [if_neg (fun hcond => hcond.1 (hnolat values))]

/-- C6 witness: the EarthGlobe copy rejects a header without `tmean`
naming the column, and the DataPanel copy returns the empty list for a
header without `lat`. -/
theorem C6_amended_witness :
    (∃ cols, parseBloomCSVEarthGlobe hdrMissingTmean [rowTwelve] =
      .error (.missingColumns cols) ∧ "tmean" ∈ cols) ∧
    parseBloomCSVDataPanel hdrNoLat [rowTwelve] = [] :=
  ⟨(C6_amended hdrMissingTmean [rowTwelve] "tmean" (by decide) (by decide)).1,
   (C6_amended hdrNoLat [rowTwelve] "lat" (by decide) (by decide)).2 (by decide)⟩

/-- A successful EarthGlobe parse never returns the empty list (an empty
result is thrown as an error inside the try-block instead). -/
theorem parseEarthGlobe_ok_ne_nil (headers : List String)
    (rows : List (List Cell)) (data : List RawPoint) :
    parseBloomCSVEarthGlobe headers rows = .ok data → data ≠ [] := by
  intro hok
  simp only [parseBloomCSVEarthGlobe] at hok
  split at hok
  · exact absurd hok (by simp)
  · split at hok
    · exact absurd hok (by simp)
    · next hne => rw [← Except.ok.inj hok]; exact hne

/-- The synthetic grid always holds 64 points. -/
theorem syntheticData_ne_nil (rand : ℕ → ℚ) : syntheticData rand ≠ [] := by
  unfold syntheticData
  rw [Ne, List.flatMap_eq_nil_iff]
  intro h
  have h0 := h 0 (by simp)
  simp at h0

/-- C7: EarthGlobe `parseBloomCSV` always returns a non-empty array for
every fetch/parse outcome, returning the primary parse when it succeeds,
otherwise the minimal best-effort parse of the re-fetched text when it
yields points, otherwise the synthetic grid. -/
theorem C7_fallback_chain
    (fetched fallbackFetched : Except Unit (List String × List (List Cell)))
    (rand : ℕ → ℚ) :
    parseBloomCSVWithFallbacks fetched fallbackFetched rand ≠ [] ∧
    (∀ h rs data, fetched = .ok (h, rs) →
      parseBloomCSVEarthGlobe h rs = .ok data →
      parseBloomCSVWithFallbacks fetched fallbackFetched rand = data) ∧
    (∀ h2 rs2,
      (∀ h rs, fetched = .ok (h, rs) →
        ∃ e, parseBloomCSVEarthGlobe h rs = .error e) →
      fallbackFetched = .ok (h2, rs2) → fallbackParse h2 rs2 ≠ [] →
      parseBloomCSVWithFallbacks fetched fallbackFetched rand =
        fallbackParse h2 rs2) ∧
    ((∀ h rs, fetched = .ok (h, rs) →
        ∃ e, parseBloomCSVEarthGlobe h rs = .error e) →
      (∀ h2 rs2, fallbackFetched = .ok (h2, rs2) → fallbackParse h2 rs2 = []) →
      parseBloomCSVWithFallbacks fetched fallbackFetched rand =
        syntheticData rand) := by
  have hchain_ne : ∀ g : Except Unit (List String × List (List Cell)),
      fallbackChainResult g rand ≠ [] := by
    intro g
    cases g with
    | error e => exact syntheticData_ne_nil rand
    | ok pr =>
      obtain ⟨h, rs⟩ := pr
      show (if fallbackParse h rs ≠ [] then fallbackParse h rs
        else syntheticData rand) ≠ []
      split
      · next hfb => exact hfb
      · exact syntheticData_ne_nil rand
  refine ⟨?_, ?_, ?_, ?_⟩
  · cases fetched with
    | error e => exact hchain_ne fallbackFetched
    | ok pr =>
      obtain ⟨h, rs⟩ := pr
      show (match parseBloomCSVEarthGlobe h rs with
        | .ok data => data
        | .error _ => fallbackChainResult fallbackFetched rand) ≠ []
      cases hp : parseBloomCSVEarthGlobe h rs with
      | ok data => exact parseEarthGlobe_ok_ne_nil h rs data hp
      | error e => exact hchain_ne fallbackFetched
  · rintro h rs data rfl hok
    show (match parseBloomCSVEarthGlobe h rs with
      | .ok data => data
      | .error _ => fallbackChainResult fallbackFetched rand) = data
    rw [hok]
  · rintro h2 rs2 hfail rfl hfb
    have hres : fallbackChainResult (.ok (h2, rs2)) rand = fallbackParse h2 rs2 := by
      show (if fallbackParse h2 rs2 ≠ [] then fallbackParse h2 rs2
        else syntheticData rand) = fallbackParse h2 rs2
      rw [if_pos hfb]
    cases fetched with
    | error e => exact hres
    | ok pr =>
      obtain ⟨h, rs⟩ := pr
      obtain ⟨e, he⟩ := hfail h rs rfl
      show (match parseBloomCSVEarthGlobe h rs with
        | .ok data => data
        | .error _ => fallbackChainResult (.ok (h2, rs2)) rand) =
        fallbackParse h2 rs2
      rw [he]
      exact hres
  · intro hfail hfbnil
    have hres : fallbackChainResult fallbackFetched rand = syntheticData rand := by
      cases fallbackFetched with
      | error e => rfl
      | ok pr =>
        obtain ⟨h2, rs2⟩ := pr
        show (if fallbackParse h2 rs2 ≠ [] then fallbackParse h2 rs2
          else syntheticData rand) = syntheticData rand
        rw [if_neg (fun hne => hne (hfbnil h2 rs2 rfl))]
    cases fetched with
    | error e => exact hres
    | ok pr =>
      obtain ⟨h, rs⟩ := pr
      obtain ⟨e, he⟩ := hfail h rs rfl
      show (match parseBloomCSVEarthGlobe h rs with
        | .ok data => data
        | .error _ => fallbackChainResult fallbackFetched rand) =
        syntheticData rand
      rw [he]
      exact hres

/-- C7 witness: with both fetches failing the result is the non-empty
synthetic grid. -/
theorem C7_fallback_chain_witness :
    parseBloomCSVWithFallbacks (.error ()) (.error ()) (fun _ => 0) =
      syntheticData (fun _ => 0) ∧
    parseBloomCSVWithFallbacks (.error ()) (.error ()) (fun _ => 0) ≠ [] := by
  have h := C7_fallback_chain (.error ()) (.error ()) (fun _ => 0)
  exact ⟨h.2.2.2 (fun h1 rs heq => by cases heq) (fun h2 rs2 heq => by cases heq),
    h.1⟩

/-- C9 (counterexample to the original claim): when both the Americas CSV
fetch and the NASA POWER call fail, `getLocationData` propagates an
exception instead of returning a result. -/
theorem C9_counterexample :
    (getLocationData 40 (-75) (.error ()) (.error ())).isOk = false := by
  have hbasic : withinBasicAmericasBounds 40 (-75) = true := by
    rw [withinBasicAmericasBounds, decide_eq_true_eq]
    norm_num
  have hexcl : decide ((10:ℚ) < 40 ∧ (40:ℚ) < 20 ∧ (-30:ℚ) < -75 ∧
      (-75:ℚ) < -20) = false := by
    rw [decide_eq_false_iff_not]
    norm_num
  have hreg : isWithinAmericasRegion 40 (-75) = true := by
    rw [isWithinAmericasRegion, hbasic]
    simp only [Bool.true_eq_false, if_false, hexcl, Bool.false_eq_true]
  unfold getLocationData
  rw [if_pos hreg]
  rfl

/-- C9 (amended): every CSV-data failure of `getLocationData` falls
through to the weather API, and whenever the weather API succeeds the
caller receives a result for every CSV outcome; only when the weather API
also fails does an exception propagate. -/
theorem C9_amended (targetLat targetLon : ℚ)
    (americasFetched : Except Unit (List String × List (List Cell))) :
    (getLocationData targetLat targetLon americasFetched (.ok ())).isOk = true := by
  unfold getLocationData
  split
  · cases americasFetched with
    | error e => rfl
    | ok pr =>
      obtain ⟨headers, rows⟩ := pr
      simp only
      cases hfind : findNearestPoint targetLat targetLon
          (parseAmericasViewport headers rows targetLat targetLon) with
      | none => rfl
      | some np =>
        show (if calculateDistanceSq targetLat targetLon np.lat np.lon ≤ 25 then
            (Except.ok ⟨DataSource.csv, true,
              some (calculateDistanceSq targetLat targetLon np.lat np.lon),
              some np, true⟩ : Except String LocationDataResult)
          else nasaFallback (Except.ok ())).isOk = true
        split
        · rfl
        · rfl
  · rfl

/-- Extending a bucket with no further points changes nothing. -/
theorem appendGroup_nil (g : GroupAcc) : appendGroup g [] = g := by
  cases g; simp [appendGroup]

/-- Pushing one point then extending equals extending with the point in
front. -/
theorem appendGroup_push (g : GroupAcc) (p : BloomDataPoint)
    (grp : List BloomDataPoint) :
    appendGroup (pushPoint g p) grp = appendGroup g (p :: grp) := by
  cases g; simp [appendGroup, pushPoint]

/-- The fresh bucket for a point is the keyed empty bucket of its key. -/
theorem emptyGroup_eq (p : BloomDataPoint) :
    emptyGroup p = emptyAcc (keyOf p) := by
  simp [emptyGroup, emptyAcc, keyOf]

/-- Extending the keyed empty bucket yields the direct bucket contents. -/
theorem appendGroup_emptyAcc (k : Int × Int) (grp : List BloomDataPoint) :
    appendGroup (emptyAcc k) grp = groupAccOf k grp := by
  simp [appendGroup, emptyAcc, groupAccOf]

/-- Lookup in the updated association list. -/
theorem lookupKey_update (acc : List ((Int × Int) × GroupAcc))
    (p : BloomDataPoint) (k : Int × Int) :
    lookupKey (acc.map (fun e => if e.1 = keyOf p then (e.1, pushPoint e.2 p) else e)) k =
      (lookupKey acc k).map (fun g => if k = keyOf p then pushPoint g p else g) := by
  induction acc with
  | nil => simp [lookupKey]
  | cons e t ih =>
    obtain ⟨k1, g1⟩ := e
    by_cases hek : k1 = k
    · by_cases hkp : k1 = keyOf p
      · have hkkp : k = keyOf p := hek ▸ hkp
        simp [lookupKey, List.find?_cons, hek, hkp, hkkp]
      · have hkkp : ¬ k = keyOf p := hek ▸ hkp
        simp [lookupKey, List.find?_cons, hek, hkp, hkkp]
    · by_cases hkp : k1 = keyOf p
      · have hkpk : ¬ keyOf p = k := hkp ▸ hek
        simpa [lookupKey, List.find?_cons, hkp, hkpk, Option.map_map] using ih
      · simpa [lookupKey, List.find?_cons, hek, hkp, Option.map_map] using ih

/-- Lookup in the association list extended at the end by one entry. -/
theorem lookupKey_append_single (acc : List ((Int × Int) × GroupAcc))
    (x : (Int × Int) × GroupAcc) (k : Int × Int) :
    lookupKey (acc ++ [x]) k =
      match lookupKey acc k with
      | some g => some g
      | none => if x.1 = k then some x.2 else none := by
  induction acc with
  | nil =>
    by_cases hxk : x.1 = k
    · simp [lookupKey, List.find?_cons, hxk]
    · simp [lookupKey, List.find?_cons, hxk]
  | cons e t ih =>
    by_cases hek : e.1 = k
    · simp [lookupKey, List.find?_cons, hek]
    · simpa [lookupKey, List.find?_cons, hek] using ih

/-- Membership test of the source `Map.has` agrees with lookup success. -/
theorem any_eq_isSome_lookupKey (acc : List ((Int × Int) × GroupAcc))
    (k : Int × Int) :
    acc.any (fun e => decide (e.1 = k)) = (lookupKey acc k).isSome := by
  induction acc with
  | nil => simp [lookupKey]
  | cons e t ih =>
    by_cases hek : e.1 = k
    · simp [lookupKey, List.find?_cons, hek]
    · simpa [lookupKey, List.find?_cons, hek] using ih

/-- Effect of one `forEach` iteration on the lookup of any key. -/
theorem lookupKey_addPoint (acc : List ((Int × Int) × GroupAcc))
    (p : BloomDataPoint) (k : Int × Int) :
    lookupKey (addPoint acc p) k =
      if k = keyOf p then
        match lookupKey acc (keyOf p) with
        | some g => some (pushPoint g p)
        | none => some (pushPoint (emptyGroup p) p)
      else lookupKey acc k := by
  unfold addPoint
  by_cases hany : acc.any (fun e => decide (e.1 = keyOf p)) = true
  · rw [if_pos hany, lookupKey_update]
    rw [any_eq_isSome_lookupKey] at hany
    by_cases hk : k = keyOf p
    · subst hk
      cases hl : lookupKey acc (keyOf p) with
      | none => rw [hl] at hany; simp at hany
      | some g => simp
    · rw [if_neg hk]
      cases hl : lookupKey acc k <;> simp [hk]
  · have hfalse : acc.any (fun e => decide (e.1 = keyOf p)) = false :=
      eq_false_of_ne_true hany
    rw [if_neg (by rw [hfalse]; simp), lookupKey_append_single]
    have hnone : lookupKey acc (keyOf p) = none := by
      rw [any_eq_isSome_lookupKey] at hfalse
      exact Option.not_isSome_iff_eq_none.mp (by rw [hfalse]; simp)
    by_cases hk : k = keyOf p
    · subst hk
      rw [hnone]
    · rw [if_neg hk]
      cases hl : lookupKey acc k <;> simp [hl, Ne.symm hk]

/-- Lookup after the whole `forEach`, relative to any starting map: an
existing bucket is extended by the values of the matching points, and a
new key gets exactly the bucket of its group. -/
theorem lookupKey_foldl (data : List BloomDataPoint) :
    ∀ (acc : List ((Int × Int) × GroupAcc)) (k : Int × Int),
    lookupKey (List.foldl addPoint acc data) k =
      match lookupKey acc k with
      | some g => some (appendGroup g (groupOf data k))
      | none =>
        if groupOf data k = [] then none
        else some (appendGroup (emptyAcc k) (groupOf data k)) := by
  induction data with
  | nil =>
    intro acc k
    simp only [List.foldl_nil, groupOf, List.filter_nil]
    cases hl : lookupKey acc k <;> simp [appendGroup_nil]
  | cons p t ih =>
    intro acc k
    rw [List.foldl_cons, ih (addPoint acc p) k, lookupKey_addPoint]
    by_cases hk : k = keyOf p
    · rw [if_pos hk, hk]
      have hg : groupOf (p :: t) (keyOf p) = p :: groupOf t (keyOf p) := by
        simp [groupOf, List.filter_cons]
      rw [hg]
      cases hl : lookupKey acc (keyOf p) with
      | some g => simp [appendGroup_push]
      | none => simp [appendGroup_push, emptyGroup_eq]
    · rw [if_neg hk]
      have hg : groupOf (p :: t) k = groupOf t k := by
        simp [groupOf, List.filter_cons, Ne.symm hk]
      rw [hg]

/-- Effect of one `forEach` iteration on the key list. -/
theorem keys_addPoint (acc : List ((Int × Int) × GroupAcc)) (p : BloomDataPoint) :
    (addPoint acc p).map Prod.fst =
      if (lookupKey acc (keyOf p)).isSome then acc.map Prod.fst
      else acc.map Prod.fst ++ [keyOf p] := by
  unfold addPoint
  rw [← any_eq_isSome_lookupKey]
  by_cases h : acc.any (fun e => decide (e.1 = keyOf p)) = true
  · rw [if_pos h, if_pos h, List.map_map]
    apply List.map_congr_left
    intro e _
    simp only [Function.comp_apply]
    split <;> rfl
  · have hfalse : acc.any (fun e => decide (e.1 = keyOf p)) = false :=
      eq_false_of_ne_true h
    rw [if_neg (by rw [hfalse]; simp), if_neg (by rw [hfalse]; simp)]
    simp

/-- Membership in the key list agrees with lookup success. -/
theorem mem_keys_iff_lookup (acc : List ((Int × Int) × GroupAcc)) (k : Int × Int) :
    k ∈ acc.map Prod.fst ↔ (lookupKey acc k).isSome := by
  induction acc with
  | nil => simp [lookupKey]
  | cons e t ih =>
    by_cases hek : e.1 = k
    · simp [lookupKey, List.find?_cons, hek]
    · have hke : ¬ k = e.1 := fun h => hek h.symm
      simp [lookupKey, List.find?_cons, hek, hke]

/-- The key list of the aggregation map has no duplicates. -/
theorem keys_nodup_foldl (data : List BloomDataPoint) :
    ∀ acc, (acc.map Prod.fst).Nodup →
    ((List.foldl addPoint acc data).map Prod.fst).Nodup := by
  induction data with
  | nil => intro acc h; simpa using h
  | cons p t ih =>
    intro acc h
    rw [List.foldl_cons]
    apply ih
    rw [keys_addPoint]
    split
    · exact h
    · next hns =>
      have hnotmem : keyOf p ∉ acc.map Prod.fst := by
        rw [mem_keys_iff_lookup]
        simpa using hns
      simp [List.nodup_append, h, hnotmem]

/-- With duplicate-free keys, list membership of an entry agrees with
lookup. -/
theorem mem_iff_lookupKey :
    ∀ (acc : List ((Int × Int) × GroupAcc)) (k : Int × Int) (g : GroupAcc),
    (acc.map Prod.fst).Nodup → ((k, g) ∈ acc ↔ lookupKey acc k = some g) := by
  intro acc
  induction acc with
  | nil => intro k g _; simp [lookupKey]
  | cons e t ih =>
    intro k g hnd
    obtain ⟨k1, g1⟩ := e
    simp only [List.map_cons, List.nodup_cons] at hnd
    by_cases hek : k1 = k
    · subst hek
      have hhead : lookupKey ((k1, g1) :: t) k1 = some g1 := by
        simp [lookupKey, List.find?_cons]
      rw [hhead]
      constructor
      · intro hmem
        rcases List.mem_cons.mp hmem with heq | hmem
        · rw [Prod.mk.injEq] at heq
          rw [heq.2]
        · exfalso
          exact hnd.1 (List.mem_map_of_mem Prod.fst hmem)
      · intro hsome
        have hg : g = g1 := (Option.some_inj.mp hsome).symm
        rw [hg]
        exact List.mem_cons_self _ _
    · have hskip : lookupKey ((k1, g1) :: t) k = lookupKey t k := by
        simp [lookupKey, List.find?_cons, hek]
      rw [hskip, ← ih k g hnd.2]
      constructor
      · intro hmem
        rcases List.mem_cons.mp hmem with heq | hmem
        · exfalso
          rw [Prod.mk.injEq] at heq
          exact hek heq.1.symm
        · exact hmem
      · exact fun h => List.mem_cons_of_mem _ h

/-- Counting one value in a duplicate-free list. -/
theorem countP_eq_ite_of_nodup :
    ∀ (l : List (Int × Int)), l.Nodup → ∀ k : Int × Int,
    l.countP (fun x => decide (x = k)) = if k ∈ l then 1 else 0 := by
  intro l
  induction l with
  | nil => intro _ k; simp
  | cons a t ih =>
    intro hnd k
    simp only [List.nodup_cons] at hnd
    rw [List.countP_cons]
    by_cases hak : a = k
    · subst hak
      rw [ih hnd.2 a, if_neg hnd.1, if_pos (List.mem_cons_self a t)]
      simp
    · have hka : ¬ k = a := fun h => hak h.symm
      rw [ih hnd.2 k]
      simp [List.mem_cons, hka, hak]

/-- A group is non-empty exactly when some input point carries its key. -/
theorem groupOf_ne_nil_iff (data : List BloomDataPoint) (k : Int × Int) :
    groupOf data k ≠ [] ↔ ∃ p ∈ data, keyOf p = k := by
  rw [groupOf]
  constructor
  · intro h
    rcases List.exists_mem_of_ne_nil _ h with ⟨p, hp⟩
    rw [List.mem_filter, decide_eq_true_eq] at hp
    exact ⟨p, hp.1, hp.2⟩
  · rintro ⟨p, hmem, hkey⟩ hnil
    have : p ∈ List.filter (fun p => decide (keyOf p = k)) data := by
      rw [List.mem_filter, decide_eq_true_eq]
      exact ⟨hmem, hkey⟩
    rw [hnil] at this
    exact List.not_mem_nil p this

/-- Every entry of the aggregation map carries exactly the bucket of its
group, which is non-empty. -/
theorem monthly_entry_spec (data : List BloomDataPoint) :
    ∀ e ∈ monthlyAggregates data,
    groupOf data e.1 ≠ [] ∧ e.2 = groupAccOf e.1 (groupOf data e.1) := by
  intro e he
  obtain ⟨k, g⟩ := e
  have hnd := keys_nodup_foldl data [] (by simp)
  simp only [monthlyAggregates] at he
  rw [mem_iff_lookupKey _ _ _ hnd] at he
  rw [lookupKey_foldl data [] k] at he
  simp only [lookupKey, List.find?_nil, Option.map_none] at he
  by_cases hg : groupOf data k = []
  · rw [if_pos hg] at he
    exact absurd he (by simp)
  · rw [if_neg hg] at he
    refine ⟨hg, ?_⟩
    have := Option.some_inj.mp he
    rw [← this, appendGroup_emptyAcc]

/-- C3: the aggregator emits exactly one record per distinct
`(year, month)` pair present in its input (and none for absent pairs),
the ndvi, temperature and vpd fields of each record are the arithmetic means of
the corresponding group values, and the records are sorted by year
ascending then month ascending. -/
theorem C3_aggregator (locationData : List BloomDataPoint) (y m : Int) :
    List.Sorted chronoLE (timeSeriesOf locationData) ∧
    ((timeSeriesOf locationData).countP
        (fun ts => decide (ts.year = y ∧ ts.month = m)) =
      if ∃ p ∈ locationData, p.year = y ∧ p.month = m then 1 else 0) ∧
    (∀ ts ∈ timeSeriesOf locationData,
      ts.ndvi = ((groupOf locationData (ts.year, ts.month)).map
          BloomDataPoint.NDVI).sum /
        (groupOf locationData (ts.year, ts.month)).length ∧
      ts.temperature = ((groupOf locationData (ts.year, ts.month)).map
          BloomDataPoint.tmean).sum /
        (groupOf locationData (ts.year, ts.month)).length ∧
      ts.vpd = ((groupOf locationData (ts.year, ts.month)).map
          BloomDataPoint.vpd).sum /
        (groupOf locationData (ts.year, ts.month)).length ∧
      groupOf locationData (ts.year, ts.month) ≠ []) := by
  refine ⟨List.sorted_insertionSort chronoLE _, ?_, ?_⟩
  · have hnd : ((monthlyAggregates locationData).map Prod.fst).Nodup :=
      keys_nodup_foldl locationData [] (by simp)
    rw [timeSeriesOf, (List.perm_insertionSort chronoLE _).countP_eq,
      List.countP_map]
    have hcongr : ∀ e ∈ monthlyAggregates locationData,
        (((fun ts => decide (ts.year = y ∧ ts.month = m)) ∘
          (fun e => mkRecord e.2)) e = true) ↔
        ((fun e => decide (e.1 = (y, m))) e = true) := by
      intro e he
      obtain ⟨_, hacc⟩ := monthly_entry_spec locationData e he
      simp only [Function.comp_apply, hacc, mkRecord, groupAccOf,
        decide_eq_true_eq, Prod.ext_iff]
    rw [List.countP_congr hcongr]
    have hkeys : (monthlyAggregates locationData).countP
        (fun e => decide (e.1 = (y, m))) =
        ((monthlyAggregates locationData).map Prod.fst).countP
          (fun x => decide (x = (y, m))) := by
      rw [List.countP_map]
      rfl
    rw [hkeys, countP_eq_ite_of_nodup _ hnd (y, m)]
    have hfold : lookupKey (monthlyAggregates locationData) (y, m) =
        if groupOf locationData (y, m) = [] then none
        else some (appendGroup (emptyAcc (y, m)) (groupOf locationData (y, m))) := by
      rw [monthlyAggregates, lookupKey_foldl locationData [] (y, m)]
      simp [lookupKey]
    have hiff : (y, m) ∈ (monthlyAggregates locationData).map Prod.fst ↔
        ∃ p ∈ locationData, p.year = y ∧ p.month = m := by
      rw [mem_keys_iff_lookup, hfold]
      by_cases hg : groupOf locationData (y, m) = []
      · rw [if_pos hg]
        simp only [Option.isSome_none, Bool.false_eq_true, false_iff]
        rintro ⟨p, hmem, hy, hm⟩
        have : ∃ p ∈ locationData, keyOf p = (y, m) :=
          ⟨p, hmem, by rw [keyOf, hy, hm]⟩
        exact (groupOf_ne_nil_iff locationData (y, m)).mpr this hg
      · rw [if_neg hg]
        simp only [Option.isSome_some, true_iff]
        rcases (groupOf_ne_nil_iff locationData (y, m)).mp hg with ⟨p, hmem, hk⟩
        rw [keyOf, Prod.mk.injEq] at hk
        exact ⟨p, hmem, hk.1, hk.2⟩
    exact if_congr hiff rfl rfl
  · intro ts hts
    rw [timeSeriesOf, List.mem_insertionSort] at hts
    rcases List.mem_map.mp hts with ⟨e, he, rfl⟩
    obtain ⟨hne, hacc⟩ := monthly_entry_spec locationData e he
    have hy : (mkRecord e.2).year = e.1.1 := by rw [hacc]; rfl
    have hm : (mkRecord e.2).month = e.1.2 := by rw [hacc]; rfl
    rw [hy, hm, Prod.mk.eta]
    refine ⟨?_, ?_, ?_, hne⟩ <;>
      rw [hacc] <;> simp [mkRecord, groupAccOf]

/-- C3 witness: for two April-2020 points with NDVI 0.65 and 0.55 the
aggregator emits exactly one record and its ndvi equals the group mean
(3/5), matching the worked example of the spec. -/
theorem C3_aggregator_witness :
    (⟨3/5, 29/2, 95, 95/2, 2020, 4⟩ : TimeSeriesRecord) ∈
      timeSeriesOf [samplePoint, samplePoint2] ∧
    (⟨3/5, 29/2, 95, 95/2, 2020, 4⟩ : TimeSeriesRecord).ndvi =
      ((groupOf [samplePoint, samplePoint2] (2020, 4)).map
        BloomDataPoint.NDVI).sum /
      (groupOf [samplePoint, samplePoint2] (2020, 4)).length ∧
    (timeSeriesOf [samplePoint, samplePoint2]).countP
      (fun ts => decide (ts.year = 2020 ∧ ts.month = 4)) = 1 := by
  have heval : timeSeriesOf [samplePoint, samplePoint2] =
      [⟨3/5, 29/2, 95, 95/2, 2020, 4⟩] := by
    simp [timeSeriesOf, monthlyAggregates, addPoint, keyOf, pushPoint,
      emptyGroup, mkRecord, samplePoint, samplePoint2]
    norm_num
  have hmem : (⟨3/5, 29/2, 95, 95/2, 2020, 4⟩ : TimeSeriesRecord) ∈
      timeSeriesOf [samplePoint, samplePoint2] := by
    rw [heval]
    exact List.mem_cons_self _ _
  refine ⟨hmem, ?_, ?_⟩
  · exact ((C3_aggregator [samplePoint, samplePoint2] 2020 4).2.2 _ hmem).1
  · rw [(C3_aggregator [samplePoint, samplePoint2] 2020 4).2.1]
    rw [if_pos ⟨samplePoint, List.mem_cons_self _ _, rfl, rfl⟩]

/-- Monotonicity of the square filter in the radius. -/
theorem squareFilter_mono (data : List BloomDataPoint) (clat clng r r' : ℚ)
    (hr : r ≤ r') : ∀ p ∈ squareFilter data clat clng r,
    p ∈ squareFilter data clat clng r' := by
  intro p hp
  rw [squareFilter, List.mem_filter] at hp ⊢
  rcases hp with ⟨hmem, hcond⟩
  rw [decide_eq_true_eq] at hcond
  refine ⟨hmem, ?_⟩
  rw [decide_eq_true_eq]
  exact ⟨le_trans hcond.1 hr, le_trans hcond.2 hr⟩

/-- The radius loop returns the filter result of the first radius in the
list yielding at least one match. -/
theorem searchLoop_first (data : List BloomDataPoint) (clat clng : ℚ) :
    ∀ rs : List ℚ, searchLoop data clat clng rs ≠ [] →
    ∃ pre r0 post, rs = pre ++ r0 :: post ∧
      (∀ s ∈ pre, squareFilter data clat clng s = []) ∧
      squareFilter data clat clng r0 ≠ [] ∧
      searchLoop data clat clng rs = squareFilter data clat clng r0 := by
  intro rs
  induction rs with
  | nil => intro h; exact absurd rfl h
  | cons r rest ih =>
    intro h
    rw [searchLoop] at h ⊢
    by_cases hlen : (squareFilter data clat clng r).length > 0
    · rw [if_pos hlen] at h ⊢
      exact ⟨[], r, rest, rfl, by simp, by
        intro hnil; rw [hnil] at hlen; simp at hlen, rfl⟩
    · rw [if_neg hlen] at h ⊢
      obtain ⟨pre, r0, post, hsplit, hpre, hne, heq⟩ := ih h
      refine ⟨r :: pre, r0, post, by simp [hsplit], ?_, hne, heq⟩
      intro s hs
      rcases List.mem_cons.mp hs with rfl | hs
      · rw [← List.length_eq_zero]; omega
      · exact hpre s hs

/-- If some radius in the list matches, the radius loop finds a match. -/
theorem searchLoop_ne_nil (data : List BloomDataPoint) (clat clng : ℚ) :
    ∀ rs : List ℚ, (∃ s ∈ rs, squareFilter data clat clng s ≠ []) →
    searchLoop data clat clng rs ≠ [] := by
  intro rs
  induction rs with
  | nil => rintro ⟨s, hs, _⟩; exact absurd hs (List.not_mem_nil s)
  | cons r rest ih =>
    rintro ⟨s, hs, hne⟩
    rw [searchLoop]
    by_cases hlen : (squareFilter data clat clng r).length > 0
    · rw [if_pos hlen]
      intro hnil; rw [hnil] at hlen; simp at hlen
    · rw [if_neg hlen]
      apply ih
      refine ⟨s, ?_, hne⟩
      rcases List.mem_cons.mp hs with rfl | hs
      · exfalso; apply hne; rw [← List.length_eq_zero]; omega
      · exact hs

/-- The nearest-50 fallback is sorted by distance. -/
theorem sorted_nearestFifty (data : List BloomDataPoint) (clat clng : ℚ) :
    List.Sorted (fun a b => distSq clat clng a ≤ distSq clat clng b)
      (nearestFifty data clat clng) := by
  letI : IsTotal BloomDataPoint (fun a b => distSq clat clng a ≤ distSq clat clng b) :=
    ⟨fun a b => le_total _ _⟩
  letI : IsTrans BloomDataPoint (fun a b => distSq clat clng a ≤ distSq clat clng b) :=
    ⟨fun a b c => le_trans⟩
  exact List.Pairwise.sublist (List.take_sublist _ _)
    (List.sorted_insertionSort _ data)

/-- C2: the expanding-radius square filter is monotonic (the result at a
smaller radius is a subset of the result at a larger one for the same
center); the search returns the result of the first radius in the sequence
0.5, 1, 2, 5, 10 yielding at least one match; and when no radius matches,
the nearest-K fallback returns exactly `min 50 data.length` points ranked
by Euclidean-in-degrees distance. -/
theorem C2_expanding_radius (data : List BloomDataPoint) (clat clng r r' : ℚ) :
    (r < r' → ∀ p ∈ squareFilter data clat clng r,
      p ∈ squareFilter data clat clng r') ∧
    (searchLoop data clat clng searchRadii ≠ [] →
      ∃ pre r0 post, searchRadii = pre ++ r0 :: post ∧
        (∀ s ∈ pre, squareFilter data clat clng s = []) ∧
        squareFilter data clat clng r0 ≠ [] ∧
        locationDataOf data clat clng = squareFilter data clat clng r0) ∧
    ((∃ s ∈ searchRadii, squareFilter data clat clng s ≠ []) →
      searchLoop data clat clng searchRadii ≠ []) ∧
    ((∀ s ∈ searchRadii, squareFilter data clat clng s = []) →
      locationDataOf data clat clng = nearestFifty data clat clng ∧
      (nearestFifty data clat clng).length = min 50 data.length ∧
      List.Sorted (fun a b => distSq clat clng a ≤ distSq clat clng b)
        (nearestFifty data clat clng)) := by
  refine ⟨fun hr => squareFilter_mono data clat clng r r' (le_of_lt hr), ?_, ?_, ?_⟩
  · intro h
    obtain ⟨pre, r0, post, hsplit, hpre, hne, heq⟩ :=
      searchLoop_first data clat clng searchRadii h
    refine ⟨pre, r0, post, hsplit, hpre, hne, ?_⟩
    rw [locationDataOf]
    rw [if_neg (by simpa [List.length_eq_zero] using h)]
    exact heq
  · exact searchLoop_ne_nil data clat clng searchRadii
  · intro hall
    have hnil : searchLoop data clat clng searchRadii = [] := by
      by_contra hne
      obtain ⟨pre, r0, post, hsplit, _, hne0, _⟩ :=
        searchLoop_first data clat clng searchRadii hne
      exact hne0 (hall r0 (by rw [hsplit]; exact List.mem_append_right _ (List.mem_cons_self _ _)))
    refine ⟨by rw [locationDataOf, hnil]; simp, ?_, sorted_nearestFifty data clat clng⟩
    rw [nearestFifty, List.length_take, List.length_insertionSort]

/-- C2 witness: a point within 1° of the center is kept at the larger
radius, and with the center far from all data the fallback returns
`min 50 1` points. -/
theorem C2_expanding_radius_witness :
    ((1:ℚ)/2 < 1 ∧ samplePoint ∈ squareFilter [samplePoint] 40 (-75) 1) ∧
    ((∀ s ∈ searchRadii, squareFilter [samplePoint] 0 100 s = []) ∧
      locationDataOf [samplePoint] 0 100 = nearestFifty [samplePoint] 0 100 ∧
      (nearestFifty [samplePoint] 0 100).length = min 50 1) := by
  constructor
  · have h1 : (1:ℚ)/2 < 1 := by norm_num
    have hmem : samplePoint ∈ squareFilter [samplePoint] 40 (-75) (1/2) := by
      simp only [squareFilter, List.filter, samplePoint]
      norm_num
    exact ⟨h1, (C2_expanding_radius [samplePoint] 40 (-75) (1/2) 1).1 h1 samplePoint hmem⟩
  · have hall : ∀ s ∈ searchRadii, squareFilter [samplePoint] 0 100 s = [] := by
      intro s hs
      simp only [searchRadii, List.mem_cons, List.not_mem_nil, or_false] at hs
      rcases hs with rfl | rfl | rfl | rfl | rfl <;>
        (simp only [squareFilter, List.filter, samplePoint]; norm_num)
    have h := (C2_expanding_radius [samplePoint] 0 100 0 0).2.2.2 hall
    exact ⟨hall, h.1, by simpa using h.2.1⟩

/-- C5 witness: one point at a zoomed-in camera height stays unchanged. -/
theorem C5_budget_tiers_witness :
    ([samplePoint] : List BloomDataPoint).length ≤ maxPointsPerRegion 500000 ∧
    limitedData [samplePoint] 500000 = [samplePoint] := by
  have hbudget : maxPointsPerRegion 500000 = 3000 := by norm_num [maxPointsPerRegion]
  refine ⟨by rw [hbudget]; norm_num, ?_⟩
  exact (C5_budget_tiers [samplePoint] 500000).2.1 (by rw [hbudget]; norm_num)

end Mangae
